import Mathlib

/-!
Verification of `impactlib/load.py` (repository-data loader).

The module fetches a list of URLs obtained from `config.get_repos()`,
parses each response body as JSON, merges the documents in list order
into one dictionary (`ret.update(data)`), caches the merged dictionary
in the module-global `cached_data`, and returns it.  Subsequent calls
return the cached value.

Shallow embedding: the external collaborators (the HTTP transport
`urllib2.urlopen`, and the JSON codec `json.loads`) are modelled as
functions supplied by an `Env`; the loader's own control flow (the
loop, the merge, the cache test and assignment) is translated from the
source.  The module-global `cached_data` is threaded explicitly as an
`Option Dict` value.  Observable side effects (HTTP GETs, body reads,
stream closes) are recorded in an event trace.
-/

namespace Impactlib

/-- A JSON value as produced by `json.loads`: `null`, booleans, numbers
(modelled as integers; the claims never involve fractions), strings,
arrays and objects. -/
inductive JsonValue where
  | null
  | bool (b : Bool)
  | num (n : Int)
  | str (s : String)
  | arr (elems : List JsonValue)
  | obj (fields : List (String × JsonValue))

mutual

/-- Structural equality of JSON values (Python `==` on the
corresponding values, restricted to the shapes `json.loads`
produces). -/
def JsonValue.beq : JsonValue → JsonValue → Bool
  | .null, .null => true
  | .bool a, .bool b => a == b
  | .num a, .num b => a == b
  | .str a, .str b => a == b
  | .arr xs, .arr ys => JsonValue.beqList xs ys
  | .obj fs, .obj gs => JsonValue.beqFields fs gs
  | _, _ => false

/-- Elementwise equality of JSON arrays. -/
def JsonValue.beqList : List JsonValue → List JsonValue → Bool
  | [], [] => true
  | x :: xs, y :: ys => JsonValue.beq x y && JsonValue.beqList xs ys
  | _, _ => false

/-- Fieldwise equality of JSON objects. -/
def JsonValue.beqFields : List (String × JsonValue) → List (String × JsonValue) → Bool
  | [], [] => true
  | (k₁, v₁) :: fs, (k₂, v₂) :: gs =>
    k₁ == k₂ && JsonValue.beq v₁ v₂ && JsonValue.beqFields fs gs
  | _, _ => false

end

instance : BEq JsonValue := ⟨JsonValue.beq⟩

/-- The error kinds Python's `dict.update` raises on a non-mapping
argument: `TypeError` (argument or element not iterable, or an
unhashable key) and `ValueError` (an element whose length is not 2). -/
inductive UpdateError where
  | typeError
  | valueError
deriving DecidableEq

/-- Errors a call of `load_repo_data` can propagate: a transport
failure from `urllib2.urlopen`, a JSON parse failure from
`json.loads`, or a `dict.update` failure on a non-object document. -/
inductive LoadError where
  | transportError
  | parseError
  | updateError (k : UpdateError)
deriving DecidableEq

/-- A Python dict in insertion order: keys are `JsonValue`s (JSON
objects contribute string keys, but `dict.update` on a sequence of
pairs can insert non-string keys). -/
abbrev Dict := List (JsonValue × JsonValue)

/-- Assignment `d[k] = v`: replace the value in place if `k` is present
(Python dicts keep the original insertion position), else append. -/
def dictSet (d : Dict) (k v : JsonValue) : Dict :=
  if d.any (fun p => p.1 == k) then
    d.map (fun p => if p.1 == k then (k, v) else p)
  else
    d ++ [(k, v)]

/-- Python `d.update(m)` for a JSON object `m`: set each field in order,
later fields overwriting earlier keys. -/
def dictUpdateObj (d : Dict) (fields : List (String × JsonValue)) : Dict :=
  fields.foldl (fun d p => dictSet d (.str p.1) p.2) d

/-- Whether a value can be a dict key (Python hashability): arrays
(lists) and objects (dicts) are unhashable. -/
def hashableKey : JsonValue → Bool
  | .arr _ => false
  | .obj _ => false
  | _ => true

/-- One element of a `dict.update` sequence argument, converted to a
key/value pair following CPython: a 2-character string gives its two
characters; a 2-element array gives its elements when the key is
hashable (`TypeError` otherwise); a 2-field object iterates its keys;
any other length gives `ValueError`; non-iterable elements give
`TypeError`. -/
def pairOfElem : JsonValue → Except UpdateError (JsonValue × JsonValue)
  | .str s =>
    match s.data with
    | [c₁, c₂] => .ok (.str (String.mk [c₁]), .str (String.mk [c₂]))
    | _ => .error .valueError
  | .arr ys =>
    match ys with
    | [k, v] => if hashableKey k then .ok (k, v) else .error .typeError
    | _ => .error .valueError
  | .obj fs =>
    match fs with
    | [(k₁, _), (k₂, _)] => .ok (.str k₁, .str k₂)
    | _ => .error .valueError
  | _ => .error .typeError

/-- Python `d.update(seq)` for a sequence argument: convert each element to a
key/value pair in order, aborting on the first bad element. -/
def updSeq (d : Dict) : List JsonValue → Except UpdateError Dict
  | [] => .ok d
  | x :: xs =>
    match pairOfElem x with
    | .error k => .error k
    | .ok p => updSeq (dictSet d p.1 p.2) xs

/-- Python `ret.update(data)` for an arbitrary `json.loads` result `data`:
an object merges field by field; any other iterable (a string iterates
its characters, an array its elements) is treated as a sequence of
key/value pairs; `null`, booleans and numbers are not iterable
(`TypeError`).  An empty string or array updates nothing. -/
def dictUpdateVal (d : Dict) (v : JsonValue) : Except UpdateError Dict :=
  match v with
  | .obj fields => .ok (dictUpdateObj d fields)
  | .str s =>
    -- each character of a non-empty string is a length-1 element
    if s.data = [] then .ok d else .error .valueError
  | .arr xs => updSeq d xs
  | _ => .error .typeError

/-- An observable side effect of one call: an HTTP GET for a URL
(`urllib2.urlopen`), a full body read (`response.read()`), or a close
of the response stream.  The source never closes the stream, so no
`close` event is ever emitted by the embedding. -/
inductive Event where
  | get (url : String)
  | read (url : String)
  | close (url : String)
deriving DecidableEq

/-- Whether an event is a stream close. -/
def Event.isClose : Event → Bool
  | .close _ => true
  | _ => false

/-- The loader's environment: the configuration provider
(`config.get_repos()`), the HTTP transport (`urllib2.urlopen` composed
with `response.read()`, returning a body or a transport failure), and
the JSON codec (`json.loads`, returning a value or a parse failure). -/
structure Env where
  repos : List String
  fetch : String → Except Unit String
  parse : String → Except Unit JsonValue

/-- The `for url in urls` loop of `load_repo_data`: for each URL in
order, issue the GET; on success read the body and parse it; merge
the document into the accumulator `ret`; abort on the first failure.
Returns the result together with the event trace of the loop. -/
def fetchAndMerge (env : Env) : List String → Dict → Except LoadError Dict × List Event
  | [], ret => (.ok ret, [])
  | url :: rest, ret =>
    -- req = urllib2.Request(url); response = urllib2.urlopen(req)
    match env.fetch url with
    | .error _ => (.error .transportError, [.get url])
    | .ok body =>
      -- data = json.loads(response.read())
      match env.parse body with
      | .error _ => (.error .parseError, [.get url, .read url])
      | .ok data =>
        -- ret.update(data)
        match dictUpdateVal ret data with
        | .error k => (.error (.updateError k), [.get url, .read url])
        | .ok ret' =>
          let r := fetchAndMerge env rest ret'
          (r.1, .get url :: .read url :: r.2)

/-- The outcome of one call of `load_repo_data`: the returned value or
propagated error, the value of `cached_data` after the call, whether
`config.get_repos()` was consulted, and the trace of network events. -/
structure CallResult where
  result : Except LoadError Dict
  cacheAfterCall : Option Dict
  consultedConfig : Bool
  trace : List Event

/-- The function `load_repo_data()`: if `cached_data != None` return it at once;
otherwise fetch and merge every URL from `config.get_repos()`, store
the result in `cached_data` on success, and return it.  The
module-global `cached_data` is passed in and returned explicitly. -/
def load_repo_data (env : Env) (cached_data : Option Dict) : CallResult :=
  match cached_data with
  | some d =>
    { result := .ok d, cacheAfterCall := some d,
      consultedConfig := false, trace := [] }
  | none =>
    let urls := env.repos
    let r := fetchAndMerge env urls []
    match r.1 with
    | .error e =>
      { result := .error e, cacheAfterCall := none,
        consultedConfig := true, trace := r.2 }
    | .ok ret =>
      { result := .ok ret, cacheAfterCall := some ret,
        consultedConfig := true, trace := r.2 }

/-- The value of `cached_data` at process start (`cached_data = None`). -/
def initialCache : Option Dict := none

/-- The value of `cached_data` after a sequence of calls of
`load_repo_data`, each call seeing its own environment, starting from
process start. -/
def cacheAfter (envs : List Env) : Option Dict :=
  envs.foldl (fun c env => (load_repo_data env c).cacheAfterCall) initialCache

/-- Environment `env` serves `url` a body that parses as the JSON object `doc`. -/
def fetchesObj (env : Env) (url : String) (doc : List (String × JsonValue)) : Prop :=
  ∃ b, env.fetch url = .ok b ∧ env.parse b = .ok (.obj doc)

/-- The fetch or parse of `url` fails in `env`, with the error kind the
loader raises for it. -/
def failsAt (env : Env) (url : String) : LoadError → Prop
  | .transportError => env.fetch url = .error ()
  | .parseError => ∃ b, env.fetch url = .ok b ∧ env.parse b = .error ()
  | .updateError _ => False

/-- The event trace of a run of the loop over `urls` in which every
URL is fetched and read successfully: one GET then one read per URL,
in list order. -/
def okEvents (urls : List String) : List Event :=
  (urls.map (fun u => [Event.get u, Event.read u])).flatten

/-- The event trace of processing a URL whose fetch or parse fails: a
transport failure leaves only the GET; a parse (or update) failure
happens after the body was read. -/
def failEvents (u : String) : LoadError → List Event
  | .transportError => [.get u]
  | _ => [.get u, .read u]

/-- A concrete environment: two URLs `A` and `B` serving the JSON
objects `{"x": 1}` and `{"x": 2, "y": 3}`. -/
def envAB : Env where
  repos := ["A", "B"]
  fetch u := if u = "A" then .ok ("bodyA") else if u = "B" then .ok ("bodyB") else .error ()
  parse s :=
    if s = "bodyA" then .ok (.obj [("x", .num 1)])
    else if s = "bodyB" then .ok (.obj [("x", .num 2), ("y", .num 3)])
    else .error ()

/-- A concrete environment: URL `A` serves `{"x": 1}`, URL `B` fails
with a transport error. -/
def envFailB : Env where
  repos := ["A", "B"]
  fetch u := if u = "A" then .ok ("bodyA") else .error ()
  parse s := if s = "bodyA" then .ok (.obj [("x", .num 1)]) else .error ()

/-- A concrete environment with an empty URL list. -/
def envEmpty : Env where
  repos := []
  fetch _ := .error ()
  parse _ := .error ()

/-- If every URL in `urls` serves an object per `docs`, the loop
returns the fold of `dictUpdateObj` over `docs` and the full
get/read trace. -/
lemma fetchAndMerge_ok (env : Env) (urls : List String)
    (docs : List (List (String × JsonValue))) (ret : Dict)
    (h : List.Forall₂ (fetchesObj env) urls docs) :
    fetchAndMerge env urls ret = (.ok (docs.foldl dictUpdateObj ret), okEvents urls) := by
  induction h generalizing ret with
  | nil => simp [fetchAndMerge, okEvents]
  | cons hu htail ih =>
    obtain ⟨b, hb, hp⟩ := hu
    simp [fetchAndMerge, hb, hp, dictUpdateVal, okEvents, ih]

/-- C1: for every ordered URL list where each fetch succeeds and each
body parses as a JSON object, `load_repo_data()` starting from an
unpopulated cache returns the fold that merges the documents in list
order, later documents overwriting earlier ones on shared keys. -/
theorem load_merges_in_list_order (env : Env)
    (docs : List (List (String × JsonValue)))
    (h : List.Forall₂ (fetchesObj env) env.repos docs) :
    (load_repo_data env none).result = .ok (docs.foldl dictUpdateObj []) := by
  simp [load_repo_data, fetchAndMerge_ok env env.repos docs [] h]

/-- Witness for C1 at the spec's example: URLs `["A", "B"]` serving
`{"x": 1}` and `{"x": 2, "y": 3}` yield `{"x": 2, "y": 3}`. -/
theorem load_merges_in_list_order_witness :
    (load_repo_data envAB none).result =
      .ok [(.str ("x"), .num 2), (.str ("y"), .num 3)] :=
  load_merges_in_list_order envAB
    [[("x", .num 1)], [("x", .num 2), ("y", .num 3)]]
    (List.Forall₂.cons ⟨"bodyA", rfl, rfl⟩
      (List.Forall₂.cons ⟨"bodyB", rfl, rfl⟩ List.Forall₂.nil))

/-- C2: once the cache is populated, a call returns the cached mapping
unchanged, with no network events and without consulting the
configuration provider. -/
theorem load_cached_is_pure_read (env : Env) (d : Dict) :
    load_repo_data env (some d) =
      { result := .ok d, cacheAfterCall := some d,
        consultedConfig := false, trace := [] } := rfl

/-- C4: with an empty URL list, the call returns the empty mapping,
stores it in the cache, and every subsequent call returns the same
empty mapping with no network events. -/
theorem load_empty_repos (env : Env) (h : env.repos = []) :
    load_repo_data env none =
      { result := .ok [], cacheAfterCall := some [],
        consultedConfig := true, trace := [] }
    ∧ ∀ env₂, load_repo_data env₂ (some []) =
      { result := .ok [], cacheAfterCall := some [],
        consultedConfig := false, trace := [] } := by
  refine ⟨?_, fun env₂ => rfl⟩
  simp [load_repo_data, h, fetchAndMerge]

/-- Witness for C4 at a concrete empty-list environment. -/
theorem load_empty_repos_witness :
    envEmpty.repos = []
    ∧ load_repo_data envEmpty none =
      { result := .ok [], cacheAfterCall := some [],
        consultedConfig := true, trace := [] }
    ∧ load_repo_data envEmpty (some []) =
      { result := .ok [], cacheAfterCall := some [],
        consultedConfig := false, trace := [] } :=
  ⟨rfl, (load_empty_repos envEmpty rfl).1, (load_empty_repos envEmpty rfl).2 envEmpty⟩

/-- If every URL in `pre` serves an object and then the fetch or parse
of `u` fails with kind `e`, the loop over `pre ++ u :: rest` aborts
with `e`, never reaching the URLs in `rest`. -/
lemma fetchAndMerge_fails (env : Env) (pre : List String)
    (docs : List (List (String × JsonValue))) (u : String)
    (rest : List String) (ret : Dict) (e : LoadError)
    (hpre : List.Forall₂ (fetchesObj env) pre docs)
    (he : failsAt env u e) :
    fetchAndMerge env (pre ++ u :: rest) ret =
      (.error e, okEvents pre ++ failEvents u e) := by
  induction hpre generalizing ret with
  | nil =>
    cases e with
    | transportError =>
      simp only [failsAt] at he
      simp [fetchAndMerge, he, okEvents, failEvents]
    | parseError =>
      obtain ⟨b, hb, hp⟩ := he
      simp [fetchAndMerge, hb, hp, okEvents, failEvents]
    | updateError k =>
      exact absurd he (by simp [failsAt])
  | cons hu htail ih =>
    obtain ⟨b, hb, hp⟩ := hu
    simp [fetchAndMerge, hb, hp, dictUpdateVal, okEvents, ih]

/-- The returned value (or error) of a cache-miss call is the value
(or error) of the loop over all configured URLs. -/
lemma load_result_eq (env : Env) :
    (load_repo_data env none).result = (fetchAndMerge env env.repos []).1 := by
  cases hfm : (fetchAndMerge env env.repos []).1 <;>
    simp [load_repo_data, hfm]

/-- The event trace of a cache-miss call is the trace of the loop over
all configured URLs. -/
lemma load_trace_eq (env : Env) :
    (load_repo_data env none).trace = (fetchAndMerge env env.repos []).2 := by
  cases hfm : (fetchAndMerge env env.repos []).1 <;>
    simp [load_repo_data, hfm]

/-- C3: if the fetch or parse of some URL fails (all earlier URLs
serving objects), the call propagates that error, the cache stays
unpopulated — the data already merged from earlier URLs is discarded —
and a subsequent call behaves exactly like a fresh call, re-attempting
the full fetch-and-merge cycle. -/
theorem load_failure_discards_and_retries (env : Env) (pre post : List String)
    (u : String) (e : LoadError) (docs : List (List (String × JsonValue)))
    (hrepos : env.repos = pre ++ u :: post)
    (hpre : List.Forall₂ (fetchesObj env) pre docs)
    (he : failsAt env u e) :
    (load_repo_data env none).result = .error e
    ∧ (load_repo_data env none).cacheAfterCall = none
    ∧ ∀ env₂, load_repo_data env₂ (load_repo_data env none).cacheAfterCall =
        load_repo_data env₂ none := by
  have hfm := fetchAndMerge_fails env pre docs u post [] e hpre he
  rw [← hrepos] at hfm
  refine ⟨?_, ?_, ?_⟩
  · simp [load_repo_data, hfm]
  · simp [load_repo_data, hfm]
  · intro env₂
    simp [load_repo_data, hfm]

/-- Witness for C3: URL `A` succeeds, URL `B` raises a transport
failure; the call propagates the failure, the cache stays unpopulated
and the next call is a full fresh attempt. -/
theorem load_failure_discards_and_retries_witness :
    (load_repo_data envFailB none).result = .error .transportError
    ∧ (load_repo_data envFailB none).cacheAfterCall = none
    ∧ load_repo_data envFailB (load_repo_data envFailB none).cacheAfterCall =
        load_repo_data envFailB none := by
  have h := load_failure_discards_and_retries envFailB ["A"] [] "B"
    .transportError [[("x", .num 1)]] rfl
    (List.Forall₂.cons ⟨"bodyA", rfl, rfl⟩ List.Forall₂.nil) rfl
  exact ⟨h.1, h.2.1, h.2.2 envFailB⟩

/-- Threading the cache through further calls never changes a
populated cache. -/
lemma cacheAfter_from_some (envs : List Env) (d : Dict) :
    envs.foldl (fun c env => (load_repo_data env c).cacheAfterCall) (some d) = some d := by
  induction envs with
  | nil => rfl
  | cons env envs ih => exact ih

/-- C6: the cache has exactly two states: it starts unpopulated at
process start; once a sequence of calls has populated it with `d`,
any further calls leave it populated with the same `d` (never
invalidated, refreshed or overwritten); and a single call populates it
only from the unpopulated state, with the value of a fully successful
fetch-and-merge cycle. -/
theorem cache_two_states_one_way (env : Env) :
    initialCache = none
    ∧ (∀ envs₁ envs₂ d, cacheAfter envs₁ = some d →
        cacheAfter (envs₁ ++ envs₂) = some d)
    ∧ (∀ c r, (load_repo_data env c).cacheAfterCall = some r →
        c = some r ∨ (c = none ∧ (fetchAndMerge env env.repos []).1 = .ok r)) := by
  refine ⟨rfl, ?_, ?_⟩
  · intro envs₁ envs₂ d h
    unfold cacheAfter at h ⊢
    rw [List.foldl_append, h, cacheAfter_from_some]
  · intro c r h
    cases c with
    | some d => exact Or.inl h
    | none =>
      refine Or.inr ⟨rfl, ?_⟩
      cases hfm : (fetchAndMerge env env.repos []).1 with
      | error e => simp [load_repo_data, hfm] at h
      | ok ret =>
        simp [load_repo_data, hfm] at h
        subst h
        rfl

/-- Witness for C6: after one successful call the cache holds the
merged mapping, and a further call leaves it unchanged. -/
theorem cache_two_states_one_way_witness :
    cacheAfter [envAB] = some [(.str ("x"), .num 2), (.str ("y"), .num 3)]
    ∧ cacheAfter ([envAB] ++ [envFailB]) =
        some [(.str ("x"), .num 2), (.str ("y"), .num 3)] := by
  have h1 : cacheAfter [envAB] = some [(.str ("x"), .num 2), (.str ("y"), .num 3)] := rfl
  exact ⟨h1, (cache_two_states_one_way envAB).2.1 [envAB] [envFailB] _ h1⟩

/-- C7: a cache-miss call issues one GET per URL sequentially in list
order, each body read in full before the next GET (the trace is
`get u₁, read u₁, get u₂, read u₂, …`); and when the fetch or parse of
a URL fails, no request is issued for any later URL. -/
theorem one_get_per_url_in_order (env : Env) :
    (∀ docs, List.Forall₂ (fetchesObj env) env.repos docs →
      (load_repo_data env none).trace = okEvents env.repos)
    ∧ (∀ pre u post docs e, env.repos = pre ++ u :: post →
        List.Forall₂ (fetchesObj env) pre docs → failsAt env u e →
        (load_repo_data env none).trace = okEvents pre ++ failEvents u e) := by
  constructor
  · intro docs h
    rw [load_trace_eq, fetchAndMerge_ok env env.repos docs [] h]
  · intro pre u post docs e hrepos hpre he
    rw [load_trace_eq, hrepos, fetchAndMerge_fails env pre docs u post [] e hpre he]

/-- Witness for C7: the all-success trace over `["A", "B"]`, and the
truncated trace when `B` fails. -/
theorem one_get_per_url_in_order_witness :
    (load_repo_data envAB none).trace = okEvents ["A", "B"]
    ∧ (load_repo_data envFailB none).trace =
        okEvents ["A"] ++ failEvents ("B") .transportError :=
  ⟨(one_get_per_url_in_order envAB).1
      [[("x", .num 1)], [("x", .num 2), ("y", .num 3)]]
      (List.Forall₂.cons ⟨"bodyA", rfl, rfl⟩
        (List.Forall₂.cons ⟨"bodyB", rfl, rfl⟩ List.Forall₂.nil)),
    (one_get_per_url_in_order envFailB).2 ["A"] "B" [] [[("x", .num 1)]]
      .transportError rfl
      (List.Forall₂.cons ⟨"bodyA", rfl, rfl⟩ List.Forall₂.nil) rfl⟩

/-- The loop raises `transportError` exactly when some URL it issued a
GET for has a failing fetch. -/
lemma fetchAndMerge_transport_iff (env : Env) :
    ∀ (urls : List String) (ret : Dict),
    (fetchAndMerge env urls ret).1 = .error .transportError ↔
      ∃ u, Event.get u ∈ (fetchAndMerge env urls ret).2 ∧ env.fetch u = .error () := by
  intro urls
  induction urls with
  | nil => intro ret; simp [fetchAndMerge]
  | cons url rest ih =>
    intro ret
    cases hf : env.fetch url with
    | error e =>
      cases e
      constructor
      · intro _
        exact ⟨url, by simp [fetchAndMerge, hf], hf⟩
      · intro _
        simp [fetchAndMerge, hf]
    | ok body =>
      cases hp : env.parse body with
      | error e =>
        cases e
        simp [fetchAndMerge, hf, hp]
      | ok v =>
        cases hu : dictUpdateVal ret v with
        | error k =>
          simp [fetchAndMerge, hf, hp, hu]
        | ok ret' =>
          simp only [fetchAndMerge, hf, hp, hu]
          rw [ih ret']
          constructor
          · rintro ⟨u, hmem, hfu⟩
            exact ⟨u, by simp [hmem], hfu⟩
          · rintro ⟨u, hmem, hfu⟩
            simp only [List.mem_cons] at hmem
            rcases hmem with hmem | hmem | hmem
            · rw [Event.get.injEq] at hmem
              rw [hmem] at hfu
              rw [hfu] at hf
              exact absurd hf (by simp)
            · exact absurd hmem (by simp)
            · exact ⟨u, hmem, hfu⟩

/-- The loop raises `parseError` exactly when some body it read fails
to parse as JSON. -/
lemma fetchAndMerge_parse_iff (env : Env) :
    ∀ (urls : List String) (ret : Dict),
    (fetchAndMerge env urls ret).1 = .error .parseError ↔
      ∃ u b, Event.read u ∈ (fetchAndMerge env urls ret).2 ∧
        env.fetch u = .ok b ∧ env.parse b = .error () := by
  intro urls
  induction urls with
  | nil => intro ret; simp [fetchAndMerge]
  | cons url rest ih =>
    intro ret
    cases hf : env.fetch url with
    | error e =>
      cases e
      simp [fetchAndMerge, hf]
    | ok body =>
      cases hp : env.parse body with
      | error e =>
        cases e
        constructor
        · intro _
          exact ⟨url, body, by simp [fetchAndMerge, hf, hp], hf, hp⟩
        · intro _
          simp [fetchAndMerge, hf, hp]
      | ok v =>
        cases hu : dictUpdateVal ret v with
        | error k =>
          simp [fetchAndMerge, hf, hp, hu]
        | ok ret' =>
          simp only [fetchAndMerge, hf, hp, hu]
          rw [ih ret']
          constructor
          · rintro ⟨u, b, hmem, hfb, hpb⟩
            exact ⟨u, b, by simp [hmem], hfb, hpb⟩
          · rintro ⟨u, b, hmem, hfb, hpb⟩
            simp only [List.mem_cons] at hmem
            rcases hmem with hmem | hmem | hmem
            · exact absurd hmem (by simp)
            · obtain rfl : u = url := by simpa using hmem
              obtain rfl : body = b := by
                have := hf.symm.trans hfb
                simpa using this
              rw [hp] at hpb
              exact absurd hpb (by simp)
            · exact ⟨u, b, hmem, hfb, hpb⟩

/-- A call whose result is an error leaves the cache unpopulated. -/
lemma load_error_cache_none (env : Env) (e : LoadError)
    (h : (load_repo_data env none).result = .error e) :
    (load_repo_data env none).cacheAfterCall = none := by
  cases hfm : (fetchAndMerge env env.repos []).1 with
  | error e₂ => simp [load_repo_data, hfm]
  | ok ret =>
    rw [load_result_eq, hfm] at h
    exact absurd h (by simp)

/-- A concrete environment: URL `A` serves the body `{not json`, which
the JSON codec rejects. -/
def envNotJson : Env where
  repos := ["A"]
  fetch u := if u = "A" then .ok ("\x7bnot json") else .error ()
  parse _ := .error ()

/-- C5: a cache-miss call fails with `transportError` exactly when one
of the GETs it issued fails, and with `parseError` exactly when one of
the bodies it read is not valid JSON; in either case the error is the
call's result (propagated, no retry) and the cache stays unpopulated
(no fallback to partial data). -/
theorem error_kinds_exact (env : Env) :
    ((load_repo_data env none).result = .error .transportError ↔
      ∃ u, Event.get u ∈ (load_repo_data env none).trace ∧
        env.fetch u = .error ())
    ∧ ((load_repo_data env none).result = .error .parseError ↔
      ∃ u b, Event.read u ∈ (load_repo_data env none).trace ∧
        env.fetch u = .ok b ∧ env.parse b = .error ())
    ∧ (∀ e, (load_repo_data env none).result = .error e →
        (load_repo_data env none).cacheAfterCall = none) := by
  refine ⟨?_, ?_, fun e h => load_error_cache_none env e h⟩
  · rw [load_result_eq, load_trace_eq]
    exact fetchAndMerge_transport_iff env env.repos []
  · rw [load_result_eq, load_trace_eq]
    exact fetchAndMerge_parse_iff env env.repos []

/-- Witness for C5: the body `{not json` produces a parse failure and
the cache stays unpopulated. -/
theorem error_kinds_exact_witness :
    (load_repo_data envNotJson none).result = .error .parseError
    ∧ (load_repo_data envNotJson none).cacheAfterCall = none := by
  have h1 : (load_repo_data envNotJson none).result = .error .parseError :=
    (error_kinds_exact envNotJson).2.1.mpr
      ⟨"A", "\x7bnot json", by decide, rfl, rfl⟩
  exact ⟨h1, (error_kinds_exact envNotJson).2.2 .parseError h1⟩

/-- No run of the loop ever emits a stream-close event: the source
never calls `close` on the response. -/
lemma fetchAndMerge_no_close (env : Env) :
    ∀ (urls : List String) (ret : Dict),
    ((fetchAndMerge env urls ret).2.filter Event.isClose) = [] := by
  intro urls
  induction urls with
  | nil => intro ret; simp [fetchAndMerge]
  | cons url rest ih =>
    intro ret
    cases hf : env.fetch url with
    | error e => simp [fetchAndMerge, hf, Event.isClose]
    | ok body =>
      cases hp : env.parse body with
      | error e => simp [fetchAndMerge, hf, hp, Event.isClose]
      | ok v =>
        cases hu : dictUpdateVal ret v with
        | error k => simp [fetchAndMerge, hf, hp, hu, Event.isClose]
        | ok ret' => simp [fetchAndMerge, hf, hp, hu, Event.isClose, ih]

/-- Counterexample to C8: in a call that fetches and reads URL `A`,
no close event for `A` (or any URL) ever appears in the trace — the
source has no `close` call and no guaranteed-release construct. -/
theorem stream_never_closed_counterexample :
    ¬ (∀ u, Event.get u ∈ (load_repo_data envAB none).trace →
        Event.close u ∈ (load_repo_data envAB none).trace) := by
  intro h
  have hmem := h ("A") (by decide)
  exact absurd hmem (by decide)

/-- C8 amended: `load_repo_data` never closes a response stream; every
call's event trace is free of close events, on success and on failure
alike (stream closure is left to interpreter finalization). -/
theorem stream_never_closed (env : Env) (c : Option Dict) :
    ((load_repo_data env c).trace.filter Event.isClose) = [] := by
  cases c with
  | some d => rfl
  | none =>
    rw [load_trace_eq]
    exact fetchAndMerge_no_close env env.repos []

/-- Whether a sequence update fails, and with which kind, depends only
on its elements, not on the dict being updated. -/
lemma updSeq_error_congr :
    ∀ (xs : List JsonValue) (d d' : Dict) (k : UpdateError),
    updSeq d xs = .error k → updSeq d' xs = .error k := by
  intro xs
  induction xs with
  | nil => intro d d' k h; simp [updSeq] at h
  | cons x xs ih =>
    intro d d' k h
    cases hp : pairOfElem x with
    | error k₂ =>
      simp [updSeq, hp] at h ⊢
      exact h
    | ok p =>
      simp only [updSeq, hp] at h ⊢
      exact ih _ _ _ h

/-- Whether `dict.update` fails, and with which kind, depends only on
its argument, not on the dict being updated. -/
lemma dictUpdateVal_error_congr (v : JsonValue) (d d' : Dict) (k : UpdateError)
    (h : dictUpdateVal d v = .error k) : dictUpdateVal d' v = .error k := by
  cases v with
  | null => simpa [dictUpdateVal] using h
  | bool b => simpa [dictUpdateVal] using h
  | num n => simpa [dictUpdateVal] using h
  | str s =>
    by_cases hc : s.data = []
    · simp [dictUpdateVal, hc] at h
    · simp [dictUpdateVal, hc] at h ⊢
      exact h
  | arr xs => exact updSeq_error_congr xs d d' k h
  | obj fields => simp [dictUpdateVal] at h

/-- If every URL in `pre` serves an object and then `u` serves a body
whose JSON value makes `dict.update` fail with kind `k`, the loop over
`pre ++ u :: rest` aborts with that update error after reading `u`'s
body. -/
lemma fetchAndMerge_update_fails (env : Env) (pre : List String)
    (docs : List (List (String × JsonValue))) (u : String)
    (rest : List String) (ret : Dict) (b : String) (v : JsonValue)
    (k : UpdateError)
    (hpre : List.Forall₂ (fetchesObj env) pre docs)
    (hb : env.fetch u = .ok b) (hv : env.parse b = .ok v)
    (hk : dictUpdateVal [] v = .error k) :
    fetchAndMerge env (pre ++ u :: rest) ret =
      (.error (.updateError k), okEvents pre ++ [.get u, .read u]) := by
  induction hpre generalizing ret with
  | nil =>
    have hk₂ := dictUpdateVal_error_congr v [] ret k hk
    simp [fetchAndMerge, hb, hv, hk₂, okEvents]
  | cons hu htail ih =>
    obtain ⟨b₂, hb₂, hp₂⟩ := hu
    simp [fetchAndMerge, hb₂, hp₂, dictUpdateVal, okEvents, ih]

/-- A concrete environment: URL `A` serves the body `7`, valid JSON
but not an object (`json.loads` yields the number 7). -/
def envNum : Env where
  repos := ["A"]
  fetch u := if u = "A" then .ok ("7") else .error ()
  parse s := if s = "7" then .ok (.num 7) else .error ()

/-- C9: when a body is valid JSON but not an object (with all earlier
URLs serving objects), no `parseError` is raised for it: `json.loads`
succeeds, and if `dict.update` rejects the value the call fails with
that update error (a TypeError/ValueError outside the spec's two
kinds) and the cache stays unpopulated. -/
theorem non_object_update_error (env : Env) (pre post : List String)
    (u : String) (docs : List (List (String × JsonValue)))
    (b : String) (v : JsonValue) (k : UpdateError)
    (hrepos : env.repos = pre ++ u :: post)
    (hpre : List.Forall₂ (fetchesObj env) pre docs)
    (hb : env.fetch u = .ok b) (hv : env.parse b = .ok v)
    (hk : dictUpdateVal [] v = .error k) :
    (load_repo_data env none).result = .error (.updateError k)
    ∧ (load_repo_data env none).result ≠ .error .parseError
    ∧ (load_repo_data env none).result ≠ .error .transportError
    ∧ (load_repo_data env none).cacheAfterCall = none := by
  have hfm := fetchAndMerge_update_fails env pre docs u post [] b v k hpre hb hv hk
  rw [← hrepos] at hfm
  have hres : (load_repo_data env none).result = .error (.updateError k) := by
    rw [load_result_eq, hfm]
  refine ⟨hres, ?_, ?_, load_error_cache_none env _ hres⟩
  · rw [hres]; simp
  · rw [hres]; simp

/-- Witness for C9: the body `7` parses as the JSON number 7, and
`dict.update` raises a TypeError (a number is not iterable); the call
fails with that error, not a parse error, and the cache stays
unpopulated. -/
theorem non_object_update_error_witness :
    (load_repo_data envNum none).result = .error (.updateError .typeError)
    ∧ (load_repo_data envNum none).result ≠ .error .parseError
    ∧ (load_repo_data envNum none).result ≠ .error .transportError
    ∧ (load_repo_data envNum none).cacheAfterCall = none :=
  non_object_update_error envNum [] [] "A" [] "7" (.num 7) .typeError
    rfl List.Forall₂.nil rfl rfl rfl

/-- Two environments agreeing on the URL list, on the fetch of every
listed URL and on the parse of every fetched body drive the loop to
the same outcome. -/
lemma fetchAndMerge_congr (env₁ env₂ : Env) :
    ∀ (urls : List String) (ret : Dict),
    (∀ u, u ∈ urls → env₁.fetch u = env₂.fetch u) →
    (∀ u b, u ∈ urls → env₁.fetch u = .ok b → env₁.parse b = env₂.parse b) →
    fetchAndMerge env₁ urls ret = fetchAndMerge env₂ urls ret := by
  intro urls
  induction urls with
  | nil => intro ret _ _; rfl
  | cons url rest ih =>
    intro ret hf hp
    have hfu : env₁.fetch url = env₂.fetch url := hf url (by simp)
    cases hf₁ : env₁.fetch url with
    | error e =>
      cases e
      have hf₂ : env₂.fetch url = .error () := by rw [← hfu]; exact hf₁
      simp [fetchAndMerge, hf₁, hf₂]
    | ok body =>
      have hf₂ : env₂.fetch url = .ok body := by rw [← hfu]; exact hf₁
      have hpb : env₁.parse body = env₂.parse body := hp url body (by simp) hf₁
      cases hp₁ : env₁.parse body with
      | error e =>
        cases e
        have hp₂ : env₂.parse body = .error () := by rw [← hpb]; exact hp₁
        simp [fetchAndMerge, hf₁, hf₂, hp₁, hp₂]
      | ok v =>
        have hp₂ : env₂.parse body = .ok v := by rw [← hpb]; exact hp₁
        cases hu : dictUpdateVal ret v with
        | error k => simp [fetchAndMerge, hf₁, hf₂, hp₁, hp₂, hu]
        | ok ret' =>
          have hrest := ih ret' (fun u hu₂ => hf u (by simp [hu₂]))
            (fun u b hu₂ hb => hp u b (by simp [hu₂]) hb)
          simp [fetchAndMerge, hf₁, hf₂, hp₁, hp₂, hu, hrest]

/-- C10: `load_repo_data` is deterministic in its environment — two
executions from an unpopulated cache whose configuration providers
return the same URL list, whose transports serve each listed URL the
same body, and whose codecs parse each served body alike, return equal
results. -/
theorem load_deterministic (env₁ env₂ : Env)
    (hr : env₁.repos = env₂.repos)
    (hf : ∀ u, u ∈ env₁.repos → env₁.fetch u = env₂.fetch u)
    (hp : ∀ u b, u ∈ env₁.repos → env₁.fetch u = .ok b →
      env₁.parse b = env₂.parse b) :
    (load_repo_data env₁ none).result = (load_repo_data env₂ none).result := by
  rw [load_result_eq, load_result_eq,
    fetchAndMerge_congr env₁ env₂ env₁.repos [] hf hp, hr]

/-- A concrete environment for C10; `envDet'` differs from it only on
URLs outside the list and bodies never served. -/
def envDet : Env where
  repos := ["A"]
  fetch u := if u = "A" then .ok ("bodyA") else .ok ("other")
  parse s := if s = "bodyA" then .ok (.obj [("x", .num 1)]) else .error ()

/-- A second concrete environment for C10, agreeing with `envDet` on
everything the loader can observe. -/
def envDet' : Env where
  repos := ["A"]
  fetch u := if u = "A" then .ok ("bodyA") else .error ()
  parse s := if s = "bodyA" then .ok (.obj [("x", .num 1)]) else .ok (.null)

/-- Witness for C10: the two environments agree on the URL list, the
served bodies and their parses, and the two first calls return equal
results. -/
theorem load_deterministic_witness :
    envDet.repos = envDet'.repos
    ∧ (load_repo_data envDet none).result = (load_repo_data envDet' none).result :=
  ⟨rfl, load_deterministic envDet envDet' rfl
    (by
      intro u hu
      obtain rfl : u = "A" := by simpa [envDet] using hu
      rfl)
    (by
      intro u b hu hb
      obtain rfl : u = "A" := by simpa [envDet] using hu
      obtain rfl : b = "bodyA" := by
        have hb₂ : Except.ok ("bodyA") = Except.ok b := hb
        simpa using hb₂.symm
      rfl)⟩

end Impactlib
